import Mathlib

/-!
Verification development for the `ynk` terminal clipboard.

The definitions below are a shallow embedding of the Rust sources:
`src/db.rs` (the SQLite-backed store), `src/utils.rs` (selector and
size reporting) and `src/handler.rs` (range resolution, the copy task
and the post-paste store bookkeeping).  Machine integers are modelled
as `Nat`/`Int`, timestamps as abstract `Int` instants, SQLite rows as a
Lean list kept in insertion (rowid) order together with the
auto-increment counter, and fallible operations return `Except`.
-/

set_option autoImplicit false

namespace Ynk

/-- A database entry, mirroring `struct Entry` in `db.rs`: the `id` is
assigned by the store, `path` is the canonical source path, and the two
timestamps are modelled as abstract instants. -/
structure Entry where
  id : Nat
  name : String
  path : String
  is_dir : Bool
  accessed_at : Int
  created_at : Int
deriving Repr, DecidableEq

/-- Mirror of `struct EntryBuilder` in `db.rs`: the caller-supplied part
of an entry, before the store assigns id and timestamps. -/
structure EntryBuilder where
  name : String
  path : String
  is_dir : Bool
deriving Repr, DecidableEq

/-- The persistent store: the rows of the `store` table in insertion
(rowid) order, plus the `AUTOINCREMENT` counter for the `id` column. -/
structure DB where
  rows : List Entry
  nextId : Nat
deriving Repr, DecidableEq

/-- Errors surfaced by the store layer; `queryReturnedNoRows` mirrors
`rusqlite::Error::QueryReturnedNoRows`. -/
inductive DbError where
  | queryReturnedNoRows
deriving Repr, DecidableEq

/-- `prep_db` in `db.rs`: creates the empty table; the auto-increment
counter starts at 1. -/
def prep_db : DB := ⟨[], 1⟩

/-- `does_exist` in `db.rs`: `SELECT ... WHERE path = ? LIMIT 1` — the
first row (in rowid order) whose `path` matches, or
`QueryReturnedNoRows`. -/
def does_exist (db : DB) (path : String) : Except DbError Entry :=
  match db.rows.find? (fun r => r.path = path) with
  | some e => Except.ok e
  | none => Except.error DbError.queryReturnedNoRows

/-- `insert_into_db` in `db.rs`: if an entry with this `path` already
exists it is returned and nothing is inserted; otherwise a fresh row is
appended with both timestamps set to `now` and the auto-increment id,
and the function re-reads the row by `name` (`WHERE name = ? LIMIT 1`,
exactly as the source does). -/
def insert_into_db (db : DB) (eb : EntryBuilder) (now : Int) :
    Except DbError Entry × DB :=
  match does_exist db eb.path with
  | Except.ok e => (Except.ok e, db)
  | Except.error _ =>
    let row : Entry := ⟨db.nextId, eb.name, eb.path, eb.is_dir, now, now⟩
    let db' : DB := ⟨db.rows ++ [row], db.nextId + 1⟩
    match db'.rows.find? (fun r => r.name = eb.name) with
    | some e => (Except.ok e, db')
    | none => (Except.error DbError.queryReturnedNoRows, db')

/-- `insert_entry` in `db.rs`: inserts an existing entry's data keeping
its timestamps; the `id` column is auto-assigned by the store. -/
def insert_entry (db : DB) (e : Entry) : DB :=
  ⟨db.rows ++ [{ e with id := db.nextId }], db.nextId + 1⟩

/-- `sort_entries` in `utils.rs`: `entries.sort_by(|a, b| b.id.cmp(&a.id))`,
a stable sort into descending id order. -/
def sort_entries (es : List Entry) : List Entry :=
  es.insertionSort (fun a b => b.id ≤ a.id)

/-- `get_all` in `db.rs`: all rows, `ORDER BY id DESC`. -/
def get_all (db : DB) : List Entry :=
  sort_entries db.rows

/-- `delete_entry` in `db.rs`: `DELETE ... WHERE path = ?`, returning the
number of affected rows. -/
def delete_entry (db : DB) (path : String) : Nat × DB :=
  (db.rows.countP (fun r => r.path = path),
   ⟨db.rows.filter (fun r => ¬ r.path = path), db.nextId⟩)

/-- `delete_all` in `db.rs`: drops the table and recreates it via
`prep_db`, which also resets the auto-increment counter. -/
def delete_all (_db : DB) : DB := prep_db

/-- `pop_one` in `db.rs`: `SELECT ... ORDER BY id DESC LIMIT 1`; a pure
read — the returned state is the input state. -/
def pop_one (db : DB) : Except DbError Entry × DB :=
  match get_all db with
  | [] => (Except.error DbError.queryReturnedNoRows, db)
  | e :: _ => (Except.ok e, db)

/-- `reid` in `db.rs`: read all rows (`get_all`, already id-descending),
sort them descending again, reverse to ascending original id, clear the
store, reinsert in that order. -/
def reid (db : DB) : DB :=
  ((sort_entries (get_all db)).reverse).foldl insert_entry (delete_all db)

/-- Well-formedness of a store state: rows are in strictly increasing id
order (insertion order never reuses ids) and every id is below the
auto-increment counter. -/
def WF (db : DB) : Prop :=
  db.rows.Pairwise (fun a b => a.id < b.id) ∧ ∀ r ∈ db.rows, r.id < db.nextId

/-! ## Selector (`deep_search` in `utils.rs`) -/

/-- Rust's `str::split(c)` over the characters of a string: every
occurrence of the separator produces a boundary, and empty pieces are
kept. -/
def splitOnChar (c : Char) : List Char → List (List Char)
  | [] => [[]]
  | x :: xs =>
    let rest := splitOnChar c xs
    if x = c then [] :: rest
    else
      match rest with
      | [] => [[x]]
      | p :: ps => (x :: p) :: ps

/-- Rust's `str::contains(c)` over the characters of a string. -/
def containsChar (c : Char) (s : List Char) : Bool :=
  s.any (fun x => x = c)

/-- Rust's `str::starts_with`: the first argument is the candidate
leading part. -/
def startsWithList : List Char → List Char → Bool
  | [], _ => true
  | _ :: _, [] => false
  | p :: ps, x :: xs => p = x && startsWithList ps xs

/-- `str::parse::<usize>`: an optional leading `+`, then at least one
digit. -/
def parseUsize (s : String) : Option Nat :=
  let cs := match s.data with
    | '+' :: rest => rest
    | cs => cs
  if cs ≠ [] ∧ cs.all Char.isDigit then
    some (cs.foldl (fun n c => 10 * n + (c.toNat - 48)) 0)
  else none

/-- `str::parse::<i32>`: an optional sign, then at least one digit
(the i32 overflow bound is irrelevant at the sizes that occur here). -/
def parseI32 (s : String) : Option Int :=
  match s.data with
  | '-' :: rest =>
    if rest ≠ [] ∧ rest.all Char.isDigit then
      some (-(rest.foldl (fun n c => 10 * n + (c.toNat - 48)) 0 : Nat))
    else none
  | _ => (parseUsize s).map (fun n => (n : Int))

/-- One step of the Levenshtein dynamic-programming row update:
`cur[j] = min (prev[j] + 1) (min (cur[j-1] + 1) (prev[j-1] + cost))`. -/
def levGo (x : Char) : List Char → List Nat → Nat → Nat → List Nat
  | [], _, _, _ => []
  | _ :: _, [], _, _ => []
  | y :: ys, pj :: ptail, left, diag =>
    let cur := min (pj + 1) (min (left + 1) (diag + (if x = y then 0 else 1)))
    cur :: levGo x ys ptail cur pj

/-- Classic Levenshtein edit distance (unit costs), as computed by
`correct_word::levenshtein::levenshtein_distance`, in row-by-row
dynamic-programming form. -/
def lev (a b : List Char) : Nat :=
  let init : List Nat := List.range (b.length + 1)
  let final := a.foldl (fun prev x =>
    match prev with
    | [] => []
    | p0 :: ptail => (p0 + 1) :: levGo x b ptail (p0 + 1) p0) init
  final.getLastD 0

def levenshtein_distance (a b : String) : Nat := lev a.data b.data

/-- The fuzzy-similarity test of `deep_search`:
`1 - d/max(len q, len name) ≥ 0.5`, rendered exactly over the integers
(`2*d ≤ m`); the `0 < m` guard reflects that `0.0/0.0` is NaN, which
compares false.  String lengths are character counts, which agrees with
Rust's byte lengths on the ASCII data used here. -/
def fuzzy_sim_ok (q n : String) : Bool :=
  let m := max q.length n.length
  decide (0 < m ∧ 2 * levenshtein_distance q n ≤ m)

/-- The string-match disjunction of `deep_search` for one query against
one entry: exact name, exact path, name prefix, path prefix, or fuzzy
similarity against the name. -/
def string_match (q : String) (e : Entry) : Bool :=
  q = e.name ∨ q = e.path ∨ startsWithList q.data e.name.data = true ∨
    startsWithList q.data e.path.data = true ∨ fuzzy_sim_ok q e.name = true

/-- `HashSet::insert` on the accumulated id set, modelled as a
duplicate-free list. -/
def insertSet (acc : List Int) (k : Int) : List Int :=
  if acc.contains k then acc else k :: acc

/-- The body of `deep_search`'s double loop: per entry, a query that
parses as an integer inserts that integer into the id set, and a
string match inserts the entry's id. -/
def deep_search_step (q : String) (acc : List Int) (e : Entry) : List Int :=
  let acc :=
    match parseI32 q with
    | some k => insertSet acc k
    | none => acc
  if string_match q e then insertSet acc (e.id : Int) else acc

/-- `deep_search` in `utils.rs`.  Queries are taken after the
filesystem-canonicalization step at the top of the loop (which is the
identity for any query that is not an existing filesystem path).  Empty
query list returns all entries; otherwise the collected id set filters
the entries in their given order. -/
def deep_search (queries : List String) (entries : List Entry) : List Entry :=
  if queries = [] then entries
  else
    let res : List Int :=
      queries.foldl (fun acc q => entries.foldl (deep_search_step q) acc) []
    entries.filter (fun e => res.contains (e.id : Int))

/-! ## Size reporting (`convert_size` and `list_dir` in `utils.rs`) -/

/-- The unit table of `convert_size`. -/
def size_units : List String := ["kB", "MB", "GB", "TB", "PB", "EB", "ZB", "YB"]

/-- Two-decimal rounding, as produced by `format!("{:.2}", x)` followed
by re-parsing. -/
def round2 (q : ℚ) : ℚ := (round (q * 100) : ℤ) / 100

/-- `convert_size` in `utils.rs`, restricted to the nonnegative inputs
that occur (so the sign handling drops out), and returning the numeric
value and unit that the Rust formats into its output string.  Inputs
below 1 are reported as-is with unit `B`; otherwise the exponent is
`floor(log_1000 num)` capped at the unit-table bound, the scaling
divisor being `1000^exponent` — the `delimiter` in the source is
`1000_f64`. -/
def convert_size (num : ℚ) : ℚ × String :=
  if num < 1 then (num, "B")
  else
    let exponent := min (Nat.log 1000 (⌊num⌋).toNat) 7
    (round2 (num / 1000 ^ exponent), size_units.getD exponent "YB")

/-- The size accumulated by `list_dir` in `utils.rs`: total bytes
divided by 1024 (`// convert to kb`, line 112). -/
def dirSizeKb (bytes : Nat) : ℚ := (bytes : ℚ) / 1024

/-- The reported size of a traversed directory: `list_dir`'s kilobyte
figure fed to `convert_size`, as in the `list` handler. -/
def reportDirSize (bytes : Nat) : ℚ × String :=
  convert_size (dirSizeKb bytes)

/-- Rendering following the spec's words, for comparison with
`reportDirSize` only: human-readable units with binary prefixes
(KB = 1024 bytes) and two-decimal rounding. -/
def spec_binary_size (bytes : Nat) : ℚ × String :=
  let units := ["B", "KB", "MB", "GB", "TB", "PB", "EB", "ZB", "YB"]
  let exponent := min (Nat.log 1024 bytes) 8
  (round2 ((bytes : ℚ) / 1024 ^ exponent), units.getD exponent "YB")

/-! ## Range resolution (`handle_paste` in `handler.rs`, lines 342–376) -/

/-- Modelled from the spec: `parse_range` is referenced from
`handler.rs` but absent from `src/utils.rs`; per the spec it parses a
two-part range expression into its inclusive endpoints `(a, b)`.  Its
caller only invokes it after checking that splitting on the separator
yields exactly two integer-parsable parts. -/
def parse_range (r : String) : Nat × Nat :=
  match ((splitOnChar ':' r.data).map (fun p => parseUsize (String.mk p))) with
  | [some a, some b] => (a, b)
  | _ => (0, 0)

/-- Outcome of the range-resolution block: `invalid` is the
`"Invalid range"` message followed by `exit(1)`, `panicked` is the
`.unwrap()` panic on a bare token that does not parse as `usize`, and
`ok` carries the selected (name, path) pairs. -/
inductive RangeRes where
  | invalid
  | panicked
  | ok (fs : List (String × String))
deriving Repr, DecidableEq

/-- The range-selection block of `handle_paste` (lines 342–376): with no
range, all supplied files pass through; a range containing `:` is split
and validated, then entries are kept by *enumeration position* within
the inclusive endpoints; a bare token is parsed as one position. -/
def resolveRange (range : Option String) (s : List (String × String)) :
    RangeRes :=
  match range with
  | none => RangeRes.ok s
  | some r =>
    if containsChar ':' r.data then
      let range_no := (splitOnChar ':' r.data).map String.mk
      if range_no.length ≠ 2 ∨ range_no.length > s.length then
        RangeRes.invalid
      else if (parseUsize (range_no.getD 0 "")).isNone ∨
          (parseUsize (range_no.getD 1 "")).isNone then
        RangeRes.invalid
      else
        let se := parse_range r
        RangeRes.ok (((s.enum).filter
          (fun p => se.1 ≤ p.1 ∧ p.1 ≤ se.2)).map Prod.snd)
    else
      match parseUsize r with
      | none => RangeRes.panicked
      | some index =>
        if index > s.length then RangeRes.invalid
        else RangeRes.ok (((s.enum).filter (fun p => p.1 = index)).map Prod.snd)

/-! ## The copy task (`copy_paste` in `handler.rs`, lines 498–524) -/

/-- A file system, as far as the copy task observes it: a path-to-bytes
association (first binding wins). -/
abbrev FS := List (String × List Nat)

def readFile (fs : FS) (p : String) : Option (List Nat) :=
  (fs.find? (fun q => q.1 = p)).map Prod.snd

def writeFile (fs : FS) (p : String) (c : List Nat) : FS :=
  (p, c) :: fs.filter (fun q => ¬ q.1 = p)

/-- Outcome of one copy task: an I/O error from the read (returned to
the aggregator), the fatal `exit(1)` on an existing destination without
`--overwrite`, or a completed copy. -/
inductive CopyRes where
  | ioError
  | fatalExists
  | copied
deriving Repr, DecidableEq

/-- `copy_paste` in `handler.rs`: create the parent directories (not
modelled — directories carry no content here), read the full source,
then, if the target exists and `overwrite` is false, abort fatally
*before* writing; otherwise write the content to the target. -/
def copy_paste (fs : FS) (source target : String) (overwrite : Bool) :
    CopyRes × FS :=
  match readFile fs source with
  | none => (CopyRes.ioError, fs)
  | some contents =>
    if (readFile fs target).isSome && !overwrite then (CopyRes.fatalExists, fs)
    else (CopyRes.copied, writeFile fs target contents)

/-! ## Post-paste bookkeeping (`handle_paste` in `handler.rs`, lines 472–485) -/

/-- Modelled from the spec: `builder_from_entry` is referenced from
`handler.rs` but absent from `src/utils.rs`; per §4.4 step 5 the kept
entry is reinserted from its own data, so the builder carries the
entry's name, path and directory flag. -/
def builder_from_entry (e : Entry) : EntryBuilder :=
  ⟨e.name, e.path, e.is_dir⟩

/-- One iteration of the post-copy loop over the originally-resolved
entries: look the entry up by path (failure is a fatal exit), delete it
by path, and, unless `--delete` was passed, re-insert it through
`insert_into_db` (whose failure is a panic, modelled as an error). -/
def post_paste_step (delete_after : Bool) (now : Int) (db : DB)
    (path : String) : Except DbError DB :=
  match does_exist db path with
  | Except.error e => Except.error e
  | Except.ok redundant_entry =>
    let db := (delete_entry db path).2
    if delete_after then Except.ok db
    else
      match insert_into_db db (builder_from_entry redundant_entry) now with
      | (Except.ok _, db') => Except.ok db'
      | (Except.error er, _) => Except.error er

/-- The whole post-copy loop of `handle_paste` (lines 472–485), over the
(name, path) pairs of the resolved entries. -/
def post_paste (db : DB) (files : List (String × String))
    (delete_after : Bool) (now : Int) : Except DbError DB :=
  files.foldlM (fun db nv => post_paste_step delete_after now db nv.2) db

/-- The caller-visible data of an entry: everything except the
store-assigned `id`. -/
def entryData (e : Entry) : String × String × Bool × Int × Int :=
  (e.name, e.path, e.is_dir, e.accessed_at, e.created_at)

/-! ## Theorems -/

/-- Claim C1: if an entry for `path` already exists in the store,
`insert_into_db` returns that existing entry unchanged, leaves the
store unchanged, and the length of `get_all` (list_all) is unaffected
by the insert. -/
theorem insert_into_db_idempotent (db : DB) (eb : EntryBuilder) (now : Int)
    (e : Entry) (h : does_exist db eb.path = Except.ok e) :
    insert_into_db db eb now = (Except.ok e, db) ∧
    (get_all (insert_into_db db eb now).2).length = (get_all db).length := by
  unfold insert_into_db
  rw [h]
  exact ⟨rfl, rfl⟩

/-- Witness for C1: inserting the path `/a` into a store that already
holds an entry for `/a` returns that entry and changes nothing. -/
theorem insert_into_db_idempotent_witness :
    insert_into_db ⟨[⟨1, "a", "/a", false, 0, 0⟩], 2⟩ ⟨"x", "/a", true⟩ 9 =
      (Except.ok ⟨1, "a", "/a", false, 0, 0⟩, ⟨[⟨1, "a", "/a", false, 0, 0⟩], 2⟩) ∧
    (get_all (insert_into_db ⟨[⟨1, "a", "/a", false, 0, 0⟩], 2⟩ ⟨"x", "/a", true⟩ 9).2).length =
      (get_all (⟨[⟨1, "a", "/a", false, 0, 0⟩], 2⟩ : DB)).length :=
  insert_into_db_idempotent ⟨[⟨1, "a", "/a", false, 0, 0⟩], 2⟩ ⟨"x", "/a", true⟩ 9
    ⟨1, "a", "/a", false, 0, 0⟩ (by rfl)

/-- Claim C5: a copy task whose destination already exists, run with
`overwrite = false`, is rejected as fatal and writes nothing: the file
system — in particular the destination's byte content — is unchanged. -/
theorem copy_paste_no_overwrite (fs : FS) (s t : String) (cs c : List Nat)
    (hs : readFile fs s = some cs) (ht : readFile fs t = some c) :
    copy_paste fs s t false = (CopyRes.fatalExists, fs) ∧
    readFile (copy_paste fs s t false).2 t = some c := by
  unfold copy_paste
  rw [hs]
  simp [ht]

/-- Witness for C5: copying `/src` over an existing `/dst` without
overwrite is rejected and leaves `/dst`'s bytes as they were. -/
theorem copy_paste_no_overwrite_witness :
    copy_paste [("/src", [1, 2]), ("/dst", [9])] "/src" "/dst" false =
      (CopyRes.fatalExists, [("/src", [1, 2]), ("/dst", [9])]) ∧
    readFile (copy_paste [("/src", [1, 2]), ("/dst", [9])] "/src" "/dst" false).2 "/dst" =
      some [9] :=
  copy_paste_no_overwrite [("/src", [1, 2]), ("/dst", [9])] "/src" "/dst"
    [1, 2] [9] (by decide) (by decide)

/-- Claim C10: deleting by a path no entry has is a no-op — `delete_entry`
reports 0 affected rows, no error, and the store is unchanged. -/
theorem delete_entry_absent (db : DB) (p : String)
    (h : ∀ r ∈ db.rows, r.path ≠ p) :
    delete_entry db p = (0, db) := by
  unfold delete_entry
  have hc : db.rows.countP (fun r => r.path = p) = 0 := by
    rw [List.countP_eq_zero]
    intro r hr
    simpa using h r hr
  have hf : db.rows.filter (fun r => ¬ r.path = p) = db.rows := by
    rw [List.filter_eq_self]
    intro r hr
    simpa using h r hr
  rw [hc, hf]

/-- The list of entries with ids reassigned consecutively from `k`,
the effect of reinserting them in order into a fresh table. -/
def assignIds (k : Nat) : List Entry → List Entry
  | [] => []
  | e :: es => { e with id := k } :: assignIds (k + 1) es

theorem orderedInsert_eq_append (a : Entry) (l : List Entry)
    (h : ∀ x ∈ l, ¬ (x.id ≤ a.id)) :
    l.orderedInsert (fun a b => b.id ≤ a.id) a = l ++ [a] := by
  induction l with
  | nil => rfl
  | cons b t ih =>
    rw [List.orderedInsert, if_neg (h b (List.mem_cons_self b t)),
      ih (fun x hx => h x (List.mem_cons_of_mem b hx)), List.cons_append]

/-- A strictly ascending entry list is sorted into exact reverse order
by `sort_entries` (descending by id). -/
theorem sort_entries_of_ascending (l : List Entry)
    (h : l.Pairwise (fun a b => a.id < b.id)) :
    sort_entries l = l.reverse := by
  induction l with
  | nil => rfl
  | cons a t ih =>
    rcases List.pairwise_cons.mp h with ⟨ha, ht⟩
    show (List.insertionSort _ t).orderedInsert _ a = _
    rw [show List.insertionSort (fun a b => b.id ≤ a.id) t = sort_entries t from rfl,
      ih ht, orderedInsert_eq_append a t.reverse
        (fun x hx => not_le_of_lt (ha x (List.mem_reverse.mp hx))),
      List.reverse_cons]

/-- A strictly descending entry list is left unchanged by
`sort_entries`. -/
theorem sort_entries_of_descending (l : List Entry)
    (h : l.Pairwise (fun a b => b.id < a.id)) :
    sort_entries l = l :=
  List.Sorted.insertionSort_eq (h.imp le_of_lt)

theorem foldl_insert_entry (l : List Entry) :
    ∀ (acc : List Entry) (k : Nat),
      l.foldl insert_entry ⟨acc, k⟩ = ⟨acc ++ assignIds k l, k + l.length⟩ := by
  induction l with
  | nil => intro acc k; simp [assignIds]
  | cons e es ih =>
    intro acc k
    rw [List.foldl_cons]
    show es.foldl insert_entry ⟨acc ++ [({ e with id := k } : Entry)], k + 1⟩ = _
    rw [ih (acc ++ [({ e with id := k } : Entry)]) (k + 1), List.append_assoc]
    simp [assignIds, List.length_cons]
    omega

/-- With a well-formed store, `reid` reads the rows back in insertion
order and reinserts them into a fresh table: the result is the same
rows with ids reassigned from 1, and the counter set past them. -/
theorem reid_eq (db : DB) (h : WF db) :
    reid db = ⟨assignIds 1 db.rows, 1 + db.rows.length⟩ := by
  unfold reid get_all delete_all prep_db
  rw [sort_entries_of_ascending db.rows h.1,
    sort_entries_of_descending db.rows.reverse
      (List.pairwise_reverse.mpr h.1),
    List.reverse_reverse]
  have := foldl_insert_entry db.rows [] 1
  rw [List.nil_append] at this
  exact this

theorem assignIds_map_entryData (k : Nat) (l : List Entry) :
    (assignIds k l).map entryData = l.map entryData := by
  induction l generalizing k with
  | nil => rfl
  | cons e es ih => simp [assignIds, entryData, ih]

theorem assignIds_map_id (k : Nat) (l : List Entry) :
    (assignIds k l).map Entry.id = List.range' k l.length := by
  induction l generalizing k with
  | nil => rfl
  | cons e es ih => simp [assignIds, List.range', ih]

theorem assignIds_length (k : Nat) (l : List Entry) :
    (assignIds k l).length = l.length := by
  induction l generalizing k with
  | nil => rfl
  | cons e es ih => simp [assignIds, ih]

theorem assignIds_assignIds (k j : Nat) (l : List Entry) :
    assignIds k (assignIds j l) = assignIds k l := by
  induction l generalizing k j with
  | nil => rfl
  | cons e es ih => simp [assignIds, ih]

theorem assignIds_id_lower (k : Nat) (l : List Entry) :
    ∀ e ∈ assignIds k l, k ≤ e.id := by
  induction l generalizing k with
  | nil => intro e he; exact absurd he (List.not_mem_nil e)
  | cons x xs ih =>
    intro e he
    rcases List.mem_cons.mp he with h | h
    · rw [h]
    · exact Nat.le_of_succ_le (ih (k + 1) e h)

theorem assignIds_pairwise (k : Nat) (l : List Entry) :
    (assignIds k l).Pairwise (fun a b => a.id < b.id) := by
  induction l generalizing k with
  | nil => exact List.Pairwise.nil
  | cons x xs ih =>
    rw [assignIds, List.pairwise_cons]
    exact ⟨fun e he => Nat.lt_of_succ_le (assignIds_id_lower (k + 1) xs e he), ih (k + 1)⟩

/-- The reassigned store produced by `reid` is itself well-formed. -/
theorem wf_assignIds (l : List Entry) :
    WF ⟨assignIds 1 l, 1 + l.length⟩ := by
  refine ⟨assignIds_pairwise 1 l, ?_⟩
  intro r hr
  have : r.id ∈ (assignIds 1 l).map Entry.id := List.mem_map_of_mem Entry.id hr
  rw [assignIds_map_id] at this
  exact (List.mem_range'_1.mp this).2

/-- Claim C6: on a well-formed store, `reid` loses no entry (the rows' data,
in order, is unchanged), renumbers the ids to be contiguous starting at
1 — so relative recency order is preserved and the most recently
inserted entry gets the highest id — leaves the counter just past the
highest id, and is safe on the empty store (where it renumbers
nothing). -/
theorem reid_spec (db : DB) (h : WF db) :
    (reid db).rows.map entryData = db.rows.map entryData ∧
    (reid db).rows.map Entry.id = List.range' 1 db.rows.length ∧
    (reid db).nextId = db.rows.length + 1 ∧
    WF (reid db) := by
  rw [reid_eq db h]
  exact ⟨assignIds_map_entryData 1 db.rows, assignIds_map_id 1 db.rows,
    Nat.add_comm 1 db.rows.length, wf_assignIds db.rows⟩

/-- Witness for C6: a store with ids 3 and 7 is renumbered to ids 1, 2
with the same data in the same order. -/
theorem reid_spec_witness :
    (reid ⟨[⟨3, "a", "/a", false, 0, 0⟩, ⟨7, "b", "/b", true, 1, 1⟩], 9⟩).rows.map entryData =
      [entryData ⟨3, "a", "/a", false, 0, 0⟩, entryData ⟨7, "b", "/b", true, 1, 1⟩] ∧
    (reid ⟨[⟨3, "a", "/a", false, 0, 0⟩, ⟨7, "b", "/b", true, 1, 1⟩], 9⟩).rows.map Entry.id =
      [1, 2] := by
  have := reid_spec ⟨[⟨3, "a", "/a", false, 0, 0⟩, ⟨7, "b", "/b", true, 1, 1⟩], 9⟩
    (by constructor
        · decide
        · decide)
  exact ⟨this.1, this.2.1⟩

/-- Claim C7: `reid` is idempotent on a well-formed store — running it twice
with no intervening mutation produces the same store, in particular the
same id for every entry, as running it once. -/
theorem reid_idempotent (db : DB) (h : WF db) :
    reid (reid db) = reid db := by
  rw [reid_eq db h, reid_eq _ (wf_assignIds db.rows),
    assignIds_assignIds, assignIds_length]

/-- Witness for C7: re-running `reid` on the renumbered two-entry store
changes nothing. -/
theorem reid_idempotent_witness :
    reid (reid ⟨[⟨3, "a", "/a", false, 0, 0⟩, ⟨7, "b", "/b", true, 1, 1⟩], 9⟩) =
      reid ⟨[⟨3, "a", "/a", false, 0, 0⟩, ⟨7, "b", "/b", true, 1, 1⟩], 9⟩ :=
  reid_idempotent ⟨[⟨3, "a", "/a", false, 0, 0⟩, ⟨7, "b", "/b", true, 1, 1⟩], 9⟩
    (by constructor
        · decide
        · decide)

/-- Claim C9: `pop_one` is read-only — it returns the input store unchanged
in every case; on an empty store it returns `QueryReturnedNoRows`, and
on a non-empty well-formed store it returns the most recently inserted
entry, whose id is maximal. -/
theorem pop_one_spec (db : DB) (h : WF db) :
    (pop_one db).2 = db ∧
    (db.rows = [] → (pop_one db).1 = Except.error DbError.queryReturnedNoRows) ∧
    (∀ e, db.rows.getLast? = some e →
      (pop_one db).1 = Except.ok e ∧ ∀ r ∈ db.rows, r.id ≤ e.id) := by
  have hg : get_all db = db.rows.reverse := sort_entries_of_ascending db.rows h.1
  unfold pop_one
  rw [hg]
  refine ⟨?_, ?_, ?_⟩
  · cases db.rows.reverse <;> rfl
  · intro he
    rw [he]
    rfl
  · intro e he
    rcases hr : db.rows.reverse with _ | ⟨a, t⟩
    · rw [List.reverse_eq_nil_iff.mp hr] at he
      exact absurd he (by simp)
    · have hha : db.rows.getLast? = some a := by
        rw [← List.head?_reverse, hr]
        rfl
      have hae : a = e := by
        rw [hha] at he
        exact Option.some_injective _ he
      subst hae
      refine ⟨rfl, ?_⟩
      intro r hrm
      have hpw : (a :: t).Pairwise (fun x y => y.id < x.id) := by
        rw [← hr]
        exact List.pairwise_reverse.mpr h.1
      have hrm' : r ∈ a :: t := by
        rw [← hr]
        exact List.mem_reverse.mpr hrm
      rcases List.mem_cons.mp hrm' with h' | h'
      · rw [h']
      · exact Nat.le_of_lt ((List.pairwise_cons.mp hpw).1 r h')

/-- Witness for C9: popping from a store with ids 1, 2, 3 returns the
id-3 entry and leaves the store untouched. -/
theorem pop_one_spec_witness :
    (pop_one ⟨[⟨1, "a", "/a", false, 0, 0⟩, ⟨2, "b", "/b", false, 0, 0⟩,
        ⟨3, "c", "/c", false, 0, 0⟩], 4⟩).2 =
      ⟨[⟨1, "a", "/a", false, 0, 0⟩, ⟨2, "b", "/b", false, 0, 0⟩,
        ⟨3, "c", "/c", false, 0, 0⟩], 4⟩ ∧
    (pop_one ⟨[⟨1, "a", "/a", false, 0, 0⟩, ⟨2, "b", "/b", false, 0, 0⟩,
        ⟨3, "c", "/c", false, 0, 0⟩], 4⟩).1 =
      Except.ok ⟨3, "c", "/c", false, 0, 0⟩ := by
  have := pop_one_spec ⟨[⟨1, "a", "/a", false, 0, 0⟩, ⟨2, "b", "/b", false, 0, 0⟩,
      ⟨3, "c", "/c", false, 0, 0⟩], 4⟩
    (by constructor
        · decide
        · decide)
  exact ⟨this.1, (this.2.2 ⟨3, "c", "/c", false, 0, 0⟩ (by decide)).1⟩

/-- Claim C3: the range expression `"2..3"` — the syntax documented both by
the spec and by the CLI help (`main.rs` line 130, "the syntax of
n..[m]") — does not select ids 2 and 3: the code only recognises `:` as
the range separator, so `"2..3"` falls through to
`range.parse::<usize>().unwrap()` and panics.  This theorem evaluates
the embedded range-resolution block on a store holding entries with ids
1, 2, 3 and exhibits the panic. -/
theorem range_dotdot_panics :
    resolveRange (some "2..3") [("a", "/a"), ("b", "/b"), ("c", "/c")] =
      RangeRes.panicked ∧
    RangeRes.panicked ≠ RangeRes.ok [("b", "/b"), ("c", "/c")] := by
  decide

/-- Claim C4 counterexample: `deep_search` cannot fail — it returns a plain
list — and on the query `"5"` against a store with ids 1, 2, 3 it
returns the empty list, not a NotFound-style error. -/
theorem deep_search_silent_empty :
    deep_search ["5"]
      [⟨1, "a", "/a", false, 0, 0⟩, ⟨2, "b", "/b", false, 0, 0⟩,
        ⟨3, "c", "/c", false, 0, 0⟩] = [] := by
  decide

theorem mem_insertSet {acc : List Int} {k x : Int}
    (h : x ∈ insertSet acc k) : x ∈ acc ∨ x = k := by
  unfold insertSet at h
  by_cases hc : acc.contains k
  · rw [if_pos hc] at h
    exact Or.inl h
  · rw [if_neg hc] at h
    rcases List.mem_cons.mp h with h | h
    · exact Or.inr h
    · exact Or.inl h

theorem deep_search_step_no_match {q : String} {k : Int} {e : Entry}
    (acc : List Int) (hq : parseI32 q = some k)
    (hm : string_match q e = false) :
    deep_search_step q acc e = insertSet acc k := by
  unfold deep_search_step
  rw [hq, hm]
  simp

theorem mem_foldl_deep_search_step {q : String} {k : Int}
    (hq : parseI32 q = some k) :
    ∀ (es : List Entry) (acc : List Int) (x : Int),
      (∀ e ∈ es, string_match q e = false) →
      x ∈ es.foldl (deep_search_step q) acc → x ∈ acc ∨ x = k := by
  intro es
  induction es with
  | nil => intro acc x _ hx; exact Or.inl hx
  | cons e es ih =>
    intro acc x hm hx
    rw [List.foldl_cons,
      deep_search_step_no_match acc hq (hm e (List.mem_cons_self e es))] at hx
    rcases ih (insertSet acc k) x (fun e' he' => hm e' (List.mem_cons_of_mem e he')) hx with
      h | h
    · exact mem_insertSet h
    · exact Or.inr h

/-- Claim C4 amended: a query token that parses as an integer id with no
matching entry, and that matches no entry by name, path, prefix or
fuzzy similarity, produces a silently empty result — `deep_search` is
total and raises no error. -/
theorem deep_search_missing_id_empty (q : String) (entries : List Entry)
    (k : Int) (hq : parseI32 q = some k)
    (hid : ∀ e ∈ entries, (e.id : Int) ≠ k)
    (hm : ∀ e ∈ entries, string_match q e = false) :
    deep_search [q] entries = [] := by
  unfold deep_search
  rw [if_neg (by simp)]
  simp only [List.foldl_cons, List.foldl_nil]
  rw [List.filter_eq_nil_iff]
  intro e he
  simp only [Bool.not_eq_true]
  rw [Bool.eq_false_iff]
  intro hcon
  rcases mem_foldl_deep_search_step hq entries [] (e.id : Int) hm
      (List.mem_of_elem_eq_true hcon) with h | h
  · exact absurd h (List.not_mem_nil _)
  · exact hid e he h

/-- Witness for C4 amended: the query `"5"` against entries with ids
1, 2, 3 and names that do not match it yields the empty list. -/
theorem deep_search_missing_id_empty_witness :
    deep_search ["5"]
      [⟨1, "aa", "/aa", false, 0, 0⟩, ⟨2, "bb", "/bb", false, 0, 0⟩] = [] :=
  deep_search_missing_id_empty "5"
    [⟨1, "aa", "/aa", false, 0, 0⟩, ⟨2, "bb", "/bb", false, 0, 0⟩] 5
    (by decide) (by decide) (by decide)

/-- Witness for C10: deleting the absent path `/zzz` from a two-entry
store affects 0 rows and leaves the store as it was. -/
theorem delete_entry_absent_witness :
    delete_entry ⟨[⟨1, "a", "/a", false, 0, 0⟩, ⟨2, "b", "/b", true, 0, 0⟩], 3⟩ "/zzz" =
      (0, ⟨[⟨1, "a", "/a", false, 0, 0⟩, ⟨2, "b", "/b", true, 0, 0⟩], 3⟩) :=
  delete_entry_absent ⟨[⟨1, "a", "/a", false, 0, 0⟩, ⟨2, "b", "/b", true, 0, 0⟩], 3⟩
    "/zzz" (by decide)

/-- Claim C2 counterexample: on a store holding the single entry
`⟨1, "a", "/a", created_at 0⟩`, pasting it at time 5 with the
delete-after option unset leaves a store whose only entry has id 2 and
`created_at` 5 — the id and `created_at` are *not* unchanged, because
the code deletes and re-inserts the entry.  And with the delete-after
option set the store keeps its auto-increment counter at 2, a state
`reid()` would not leave (`reid` resets the counter), so `reid()` was
not run. -/
theorem post_paste_counterexample :
    post_paste ⟨[⟨1, "a", "/a", false, 0, 0⟩], 2⟩ [("a", "/a")] false 5 =
      Except.ok ⟨[⟨2, "a", "/a", false, 5, 5⟩], 3⟩ ∧
    (2 : Nat) ≠ 1 ∧ (5 : Int) ≠ 0 ∧
    post_paste ⟨[⟨1, "a", "/a", false, 0, 0⟩], 2⟩ [("a", "/a")] true 5 =
      Except.ok ⟨[], 2⟩ ∧
    reid ⟨[], 2⟩ ≠ ⟨[], 2⟩ :=
  ⟨rfl, by decide, by decide, rfl, by decide⟩

theorem find?_filter_not_path (rows : List Entry) (p : String) :
    (rows.filter (fun r => ¬ r.path = p)).find? (fun r => r.path = p) = none := by
  rw [List.find?_eq_none]
  intro x hx
  have := (List.mem_filter.mp hx).2
  simpa using this

/-- Claim C2 amended: after a paste, for each originally-resolved entry the
code looks the entry up, deletes every row with its path, and — unless
the delete-after option is set — re-inserts it as a *fresh* entry: the
re-inserted row keeps the name, path and directory flag but gets the
next auto-increment id and has both `accessed_at` and `created_at` set
to now.  When delete-after is set the entry is only deleted; `reid()`
is not run. -/
theorem post_paste_spec (db : DB) (n p : String) (now : Int) (e : Entry)
    (h : does_exist db p = Except.ok e) :
    post_paste db [(n, p)] true now =
      Except.ok ⟨db.rows.filter (fun r => ¬ r.path = p), db.nextId⟩ ∧
    post_paste db [(n, p)] false now =
      Except.ok ⟨db.rows.filter (fun r => ¬ r.path = p) ++
        [⟨db.nextId, e.name, e.path, e.is_dir, now, now⟩], db.nextId + 1⟩ := by
  have hep : e.path = p := by
    unfold does_exist at h
    rcases hf : db.rows.find? (fun r => r.path = p) with _ | e'
    · rw [hf] at h
      exact absurd h (by simp)
    · rw [hf] at h
      have he' : e' = e := by
        simpa using h
      subst he'
      simpa using List.find?_some hf
  have hstep : ∀ b : Bool, post_paste db [(n, p)] b now =
      post_paste_step b now db p := by
    intro b
    unfold post_paste
    simp [List.foldlM]
  constructor
  · rw [hstep true]
    unfold post_paste_step
    rw [h]
    rfl
  · rw [hstep false]
    unfold post_paste_step
    rw [h]
    simp only [Bool.false_eq_true, if_false]
    unfold delete_entry insert_into_db builder_from_entry does_exist
    simp only
    rw [hep, find?_filter_not_path db.rows p]
    simp only
    rcases hfind : (db.rows.filter (fun r => ¬ r.path = p) ++
        [(⟨db.nextId, e.name, p, e.is_dir, now, now⟩ : Entry)]).find?
        (fun r => r.name = e.name) with _ | e'
    · exfalso
      have := List.find?_eq_none.mp hfind
        (⟨db.nextId, e.name, p, e.is_dir, now, now⟩ : Entry)
        (List.mem_append_right _ (List.mem_singleton.mpr rfl))
      simp at this
    · rw [hfind]

/-- Witness for C2 amended: the single-entry store, pasted at time 5,
ends as the freshly re-inserted entry (keep branch) or empty (delete
branch). -/
theorem post_paste_spec_witness :
    post_paste ⟨[⟨1, "a", "/a", false, 0, 0⟩], 2⟩ [("a", "/a")] true 5 =
      Except.ok ⟨[], 2⟩ ∧
    post_paste ⟨[⟨1, "a", "/a", false, 0, 0⟩], 2⟩ [("a", "/a")] false 5 =
      Except.ok ⟨[⟨2, "a", "/a", false, 5, 5⟩], 3⟩ :=
  post_paste_spec ⟨[⟨1, "a", "/a", false, 0, 0⟩], 2⟩ "a" "/a" 5
    ⟨1, "a", "/a", false, 0, 0⟩ (by rfl)

/-- Claim C8 counterexample: a directory totalling 1,024,000 bytes is
reported by the code as `1 MB` (after the by-1024 kilobyte conversion,
`convert_size` scales by powers of 1000), while binary-prefixed
(KB = 1024) two-decimal rendering reports `1000 KB` — the reported size
is not computed with binary prefixes. -/
theorem convert_size_decimal_cex :
    reportDirSize 1024000 = (1, "MB") ∧
    spec_binary_size 1024000 = (1000, "KB") ∧
    ((1 : ℚ), "MB") ≠ ((1000 : ℚ), "KB") := by
  refine ⟨?_, ?_, by norm_num⟩
  · have h1 : dirSizeKb 1024000 = 1000 := by
      norm_num [dirSizeKb]
    rw [reportDirSize, h1, convert_size, if_neg (by norm_num)]
    have hf : (⌊(1000 : ℚ)⌋).toNat = 1000 := by
      norm_num
      decide
    have hl : Nat.log 1000 1000 = 1 :=
      Nat.log_eq_of_pow_le_of_lt_pow (by norm_num) (by norm_num)
    show (round2 ((1000 : ℚ) / 1000 ^ (min (Nat.log 1000 (⌊(1000 : ℚ)⌋).toNat) 7)),
      size_units.getD (min (Nat.log 1000 (⌊(1000 : ℚ)⌋).toNat) 7) "YB") = (1, "MB")
    rw [hf, hl, show min 1 7 = 1 by decide]
    have hr : round2 ((1000 : ℚ) / 1000 ^ (1 : ℕ)) = 1 := by
      unfold round2
      norm_num
    rw [hr]
    rfl
  · rw [spec_binary_size]
    have hl : Nat.log 1024 1024000 = 1 :=
      Nat.log_eq_of_pow_le_of_lt_pow (by norm_num) (by norm_num)
    show (round2 (((1024000 : ℕ) : ℚ) / 1024 ^ (min (Nat.log 1024 1024000) 8)),
      ["B", "KB", "MB", "GB", "TB", "PB", "EB", "ZB", "YB"].getD
        (min (Nat.log 1024 1024000) 8) "YB") = (1000, "KB")
    rw [hl, show min 1 8 = 1 by decide]
    have hr : round2 (((1024000 : ℕ) : ℚ) / 1024 ^ (1 : ℕ)) = 1000 := by
      unfold round2
      norm_num
    rw [hr]
    rfl

/-- Claim C8 amended: directory byte totals are divided by 1024 into a
kilobyte figure and then formatted by `convert_size` with *decimal*
(1000-based) unit scaling and two-decimal rounding: every total from
1024 up to (but excluding) 1,024,000 bytes is reported as
`bytes/1024` rounded to two decimals, with unit `kB`. -/
theorem report_kb_band (b : Nat) (h1 : 1024 ≤ b) (h2 : b < 1024000) :
    reportDirSize b = (round2 ((b : ℚ) / 1024), "kB") := by
  unfold reportDirSize convert_size dirSizeKb
  have hge : (1 : ℚ) ≤ (b : ℚ) / 1024 := by
    rw [le_div_iff₀ (by norm_num)]
    norm_num
    exact_mod_cast h1
  rw [if_neg (not_lt.mpr hge)]
  have hlt : ((b : ℚ) / 1024) < 1000 := by
    rw [div_lt_iff₀ (by norm_num)]
    have : (b : ℚ) < 1024000 := by
      exact_mod_cast h2
    linarith
  have hfl : (⌊(b : ℚ) / 1024⌋).toNat < 1000 := by
    have hfli : ⌊(b : ℚ) / 1024⌋ < 1000 := Int.floor_lt.mpr (by exact_mod_cast hlt)
    omega
  have hlog : Nat.log 1000 (⌊(b : ℚ) / 1024⌋).toNat = 0 :=
    Nat.log_eq_zero_iff.mpr (Or.inl hfl)
  rw [hlog]
  norm_num [size_units]

/-- Witness for C8 amended: 2048 bytes are reported as `2 kB`. -/
theorem report_kb_band_witness :
    reportDirSize 2048 = (2, "kB") := by
  rw [report_kb_band 2048 (by norm_num) (by norm_num)]
  have : round2 (((2048 : ℕ) : ℚ) / 1024) = 2 := by
    unfold round2
    norm_num
  rw [this]

end Ynk
